import Mathlib

/-!
Shallow embedding of the transfer-portal core (date utilities, record
normalizer, fetch coordinator, filter engine, view state) of the
triocab-web-v2 repository, together with theorems settling the frozen
claims about it.

Strings are embedded as lists of characters (`Chars`) so that the
character-level operations of the source (split, replace, parseInt,
toLowerCase, includes) can be modelled faithfully.  JavaScript `Date`
values are embedded as `JSDate`: the local civil calendar fields plus the
milliseconds elapsed within the day; the model environment's local time
zone is taken to be UTC, which none of the proved properties depend on.
-/

abbrev Chars := List Char

/-! ## Character and number primitives (models of the JS runtime) -/

/-- Decimal digit test, by code point (48 = '0' .. 57 = '9'). -/
def isDigitCh (c : Char) : Bool := 48 ≤ c.toNat && c.toNat ≤ 57

/-- Whitespace skipped by JS parseInt (the common cases). -/
def isWSCh (c : Char) : Bool := c = ' ' || c = '\t' || c = '\n' || c = '\r'

/-- Little-endian decimal digits of a natural number, with explicit fuel so
the definition is structural (fuel `n` is enough for input `n`). -/
def natDigitsRev (fuel : Nat) (n : Nat) : List Nat :=
  match fuel with
  | 0 => []
  | f + 1 => if n = 0 then [] else n % 10 :: natDigitsRev f (n / 10)

/-- Model of the JS decimal rendering of a non-negative integer
(as produced by template-literal interpolation). -/
def natToChars (n : Nat) : Chars :=
  if n = 0 then ['0'] else ((natDigitsRev n n).map Nat.digitChar).reverse

/-- Model of the JS decimal rendering of an integer. -/
def intToChars (i : Int) : Chars :=
  if i < 0 then '-' :: natToChars i.natAbs else natToChars i.toNat

/-- Value of a maximal leading run of decimal digits, or `none` when there is
no leading digit (the NaN case of parseInt). -/
def parseIntDigits (l : Chars) : Option Nat :=
  let ds := l.takeWhile isDigitCh
  if ds = [] then none
  else some (ds.foldl (fun a c => 10 * a + (c.toNat - 48)) 0)

/-- Sign handling of parseInt, applied after whitespace skipping. -/
def parseIntSigned : Chars → Option Int
  | [] => none
  | c :: rest =>
    if c = '-' then (parseIntDigits rest).map (fun n => -(n : Int))
    else if c = '+' then (parseIntDigits rest).map (fun n => (n : Int))
    else (parseIntDigits (c :: rest)).map (fun n => (n : Int))

/-- Model of JS `parseInt(s)` in radix 10: skip leading whitespace, optional
sign, then the longest digit run; NaN (here `none`) when no digit follows. -/
def parseIntJS (l : Chars) : Option Int :=
  parseIntSigned (l.dropWhile isWSCh)

/-- Model of JS `String.prototype.split` with a single-character separator. -/
def splitChar (sep : Char) : Chars → List Chars
  | [] => [[]]
  | c :: rest =>
    if c = sep then [] :: splitChar sep rest
    else
      match splitChar sep rest with
      | [] => [[c]]
      | t :: ts => (c :: t) :: ts

/-- Model of JS `String.prototype.replace(sep, '')` with a one-character
pattern: removes the first occurrence only. -/
def removeFirst (sep : Char) : Chars → Chars
  | [] => []
  | c :: rest => if c = sep then rest else c :: removeFirst sep rest

/-- Model of JS `String.prototype.toLowerCase`, restricted to the ASCII
letters that occur in the portal's data fields. -/
def toLowerJS (l : Chars) : Chars := l.map Char.toLower

/-- Leading-segment test used by the substring search below. -/
def leadsChars : Chars → Chars → Bool
  | [], _ => true
  | _ :: _, [] => false
  | a :: as, b :: bs => a = b && leadsChars as bs

/-- Auxiliary recursion for `includesJS`: does the needle occur in the
haystack at any position. -/
def containsSub (needle : Chars) : Chars → Bool
  | [] => leadsChars needle []
  | c :: t => leadsChars needle (c :: t) || containsSub needle t

/-- Model of JS `haystack.includes(needle)`. -/
def includesJS (haystack needle : Chars) : Bool := containsSub needle haystack

/-! ## JS Date model

A valid JS `Date` is embedded as its (local) civil calendar fields plus the
milliseconds elapsed within that day; an invalid Date is `none` at use
sites (`Option JSDate`).  The model's local time zone is UTC. -/

structure JSDate where
  year : Int
  month : Nat
  day : Int
  msOfDay : Nat
  deriving DecidableEq

/-- Gregorian leap-year rule used by the JS Date arithmetic.  (JS `%` is
truncated remainder; for the `= 0` tests here it agrees with the Euclidean
remainder used by the Lean `%`.) -/
def isLeapJS (y : Int) : Bool :=
  (y % 4 = 0 && y % 100 ≠ 0) || y % 400 = 0

/-- Days in a (0-indexed) month of a given year, as in the JS calendar. -/
def daysInMonth (y : Int) (m : Nat) : Nat :=
  match m with
  | 0 => 31
  | 1 => if isLeapJS y then 29 else 28
  | 2 => 31
  | 3 => 30
  | 4 => 31
  | 5 => 30
  | 6 => 31
  | 7 => 31
  | 8 => 30
  | 9 => 31
  | 10 => 30
  | _ => 31

/-- Step one month forward (0-indexed months). -/
def addMonth (y : Int) (m : Nat) : Int × Nat :=
  if m = 11 then (y + 1, 0) else (y, m + 1)

/-- Step one month backward (0-indexed months). -/
def subMonth (y : Int) (m : Nat) : Int × Nat :=
  if m = 0 then (y - 1, 11) else (y, m - 1)

/-- Normalize an out-of-range day-of-month by stepping through adjacent
months, as the JS Date millisecond arithmetic does; `fuel` bounds the
stepping and is always supplied large enough to finish. -/
def normDays (fuel : Nat) (y : Int) (m : Nat) (d : Int) : Int × Nat × Int :=
  if d < 1 then
    match fuel with
    | 0 => (y, m, d)
    | f + 1 =>
      let p := subMonth y m
      normDays f p.1 p.2 (d + daysInMonth p.1 p.2)
  else if (daysInMonth y m : Int) < d then
    match fuel with
    | 0 => (y, m, d)
    | f + 1 =>
      let p := addMonth y m
      normDays f p.1 p.2 (d - daysInMonth y m)
  else (y, m, d)

/-- Model of the JS `new Date(year, month, day, hours, minutes, seconds, ms)`
constructor: years 0..99 are remapped to 1900..1999, months and days are
normalized by calendar arithmetic, and a result outside the representable
time-value range (approximated here at year granularity, years
-271820..275760) is an invalid Date (`none`). -/
def mkDateJS (yearIn monthIn dayIn hh mi ss msIn : Int) : Option JSDate :=
  let y0 := if 0 ≤ yearIn ∧ yearIn ≤ 99 then yearIn + 1900 else yearIn
  let t := hh * 3600000 + mi * 60000 + ss * 1000 + msIn
  let extraDays := t / 86400000
  let msOfDay := (t % 86400000).toNat
  let ym := y0 * 12 + monthIn
  let y1 := ym / 12
  let m1 := (ym % 12).toNat
  let d0 := dayIn + extraDays
  let r := normDays (d0.natAbs + 24) y1 m1 d0
  if r.1 < -271820 ∨ 275760 < r.1 then none
  else some ⟨r.1, r.2.1, r.2.2, msOfDay⟩

/-! ## Date utilities (src/src/utils/dateUtils.ts) -/

/-- The month-name-to-index record of `parseFormattedDate`
(dateUtils.ts lines 28-31); a missing key yields `undefined` (`none`). -/
def monthMap (tok : Chars) : Option Int :=
  if tok = "Jan".toList then some 0
  else if tok = "Feb".toList then some 1
  else if tok = "Mar".toList then some 2
  else if tok = "Apr".toList then some 3
  else if tok = "May".toList then some 4
  else if tok = "Jun".toList then some 5
  else if tok = "Jul".toList then some 6
  else if tok = "Aug".toList then some 7
  else if tok = "Sep".toList then some 8
  else if tok = "Oct".toList then some 9
  else if tok = "Nov".toList then some 10
  else if tok = "Dec".toList then some 11
  else none

/-- Embedding of `parseFormattedDate` (dateUtils.ts lines 12-58): split on
spaces, require exactly three tokens, look the month up, parseInt the day
(first comma removed) and year, then construct the date at local noon; any
failure yields `null` (`none`).  The surrounding try/catch never fires in
this model because none of the embedded operations throw. -/
def parseFormattedDate (dateStr : Chars) : Option JSDate :=
  if dateStr = [] then none
  else
    match splitChar ' ' dateStr with
    | [p0, p1, p2] =>
      match monthMap p0, parseIntJS (removeFirst ',' p1), parseIntJS p2 with
      | some month, some day, some year => mkDateJS year month day 12 0 0 0
      | _, _, _ => none
    | _ => none

/-- The month-name array of `formatDate` (dateUtils.ts line 71). -/
def monthsArr : List Chars :=
  ["Jan", "Feb", "Mar", "Apr", "May", "Jun",
   "Jul", "Aug", "Sep", "Oct", "Nov", "Dec"].map String.toList

/-- The default fallback text of `formatDate` (dateUtils.ts line 65). -/
def invalidDateFallback : Chars := "Invalid date".toList

/-- Embedding of `formatDate` (dateUtils.ts lines 65-81): an invalid or
missing date yields the fallback, otherwise the "MMM d, yyyy" rendering.
The source call sites use the default fallback, passed explicitly here. -/
def formatDate (date : Option JSDate) (fallback : Chars) : Chars :=
  match date with
  | none => fallback
  | some dt =>
    (monthsArr.getD dt.month "undefined".toList) ++
      ' ' :: intToChars dt.day ++ ',' :: ' ' :: intToChars dt.year

/-- Embedding of `isDateInRange` (dateUtils.ts lines 91-175).  The source
clones its arguments and normalizes `start` to 00:00:00.000 and `end` to
23:59:59.999 of their days, but then compares only the year/month/day
fields, which those setHours calls leave unchanged; the embedding reads the
calendar fields directly.  A `null` bound means unbounded on that side. -/
def isDateInRange (date : JSDate) (startDate endDate : Option JSDate) : Bool :=
  let afterStart :=
    match startDate with
    | none => true
    | some s =>
      decide (s.year < date.year) ||
      (decide (date.year = s.year) && decide (s.month < date.month)) ||
      (decide (date.year = s.year) && decide (date.month = s.month) &&
        decide (s.day ≤ date.day))
  let beforeEnd :=
    match endDate with
    | none => true
    | some e =>
      decide (date.year < e.year) ||
      (decide (date.year = e.year) && decide (date.month < e.month)) ||
      (decide (date.year = e.year) && decide (date.month = e.month) &&
        decide (date.day ≤ e.day))
  afterStart && beforeEnd

/-! ## Domain model (src/src/types/index.ts, full variant with all statuses) -/

/-- The TransferStatus union type. -/
inductive TransferStatus where
  | pending
  | confirmed
  | completed
  | cancelled
  | cancelledWithCosts
  | planned
  deriving DecidableEq

/-- One geolocation object as built by the normalizer: the source object's
latitude/longitude are copied as-is, so either may be absent at runtime
even though the TS type declares both. -/
structure GeoLoc where
  latitude : Option Int
  longitude : Option Int
  deriving DecidableEq

/-- The Transfer entity (types/index.ts).  String-typed fields are `Chars`;
fields the TS type marks optional that the normalizer nevertheless always
populates are kept required, matching the runtime objects it builds. -/
structure Transfer where
  id : Chars
  reservationId : Chars
  salesforceId : Option Chars
  longPickupAddress : Chars
  longDropoffAddress : Chars
  bookingReference : Chars
  passengerName : Chars
  passengerCount : Int
  contactPhone : Chars
  origin : Chars
  destination : Chars
  date : Chars
  pickupTime : Chars
  flightNumber : Chars
  vehicleType : Chars
  status : TransferStatus
  notes : Chars
  price : Chars
  createdAt : Chars
  pickupLocation : Option GeoLoc
  dropoffLocation : Option GeoLoc
  deriving DecidableEq

/-- One raw remote record as consumed by the normalizer in `fetchTransfers`
(useTransfers.tsx lines 249-301): loosely typed, every consulted field may
be absent. -/
structure RawReservation where
  Id : Option Chars
  Name : Chars
  Pickup_Date_Time__c : Option Chars
  Passenger_Name__c : Option Chars
  Passenger_Count__c : Option Int
  Passenger_Telephone_Number__c : Option Chars
  Pickup_Resolved_Region__c : Option Chars
  Pickup_Address__c : Option Chars
  Dropoff_Resolved_Region__c : Option Chars
  Dropoff_Address__c : Option Chars
  Flight_Number__c : Option Chars
  Vehicle_Type__c : Option Chars
  Journey_Status__c : Option Chars
  Additional_Comments__c : Option Chars
  Supplier_Net_Price__c : Option Chars
  Pickup_Location__c : Option GeoLoc
  Dropoff_Location__c : Option GeoLoc
  deriving DecidableEq

/-- JS `a || d` on a string-valued field: absent and the empty string are
both falsy. -/
def jsOrStr (v : Option Chars) (d : Chars) : Chars :=
  match v with
  | some s => if s = [] then d else s
  | none => d

/-- JS `a || d` on a number-valued field: absent and zero are falsy. -/
def jsOrNum (v : Option Int) (d : Int) : Int :=
  match v with
  | some n => if n = 0 then d else n
  | none => d

/-- Model of the JS runtime `new Date(string)` constructor on the ISO-8601
shapes the backend emits: "YYYY-MM-DD", optionally followed by
"THH:MM", ":SS" and a trailing "Z"; anything else (including a missing
field, i.e. `new Date(undefined)`) is an invalid Date (`none`).  Offsets
other than Z are not modelled; the model time zone is UTC. -/
def parseIsoTail (base : JSDate) (rest : Chars) : Option JSDate :=
  match rest with
  | [] => some base
  | 'T' :: h1 :: h2 :: ':' :: m1 :: m2 :: rest2 =>
    if isDigitCh h1 && isDigitCh h2 && isDigitCh m1 && isDigitCh m2 then
      let hh := (h1.toNat - 48) * 10 + (h2.toNat - 48)
      let mi := (m1.toNat - 48) * 10 + (m2.toNat - 48)
      if hh ≤ 23 ∧ mi ≤ 59 then
        let withTime := { base with msOfDay := hh * 3600000 + mi * 60000 }
        match rest2 with
        | [] => some withTime
        | ['Z'] => some withTime
        | ':' :: s1 :: s2 :: rest3 =>
          if isDigitCh s1 && isDigitCh s2 then
            let ss := (s1.toNat - 48) * 10 + (s2.toNat - 48)
            if ss ≤ 59 then
              let full := { base with msOfDay := hh * 3600000 + mi * 60000 + ss * 1000 }
              match rest3 with
              | [] => some full
              | ['Z'] => some full
              | _ => none
            else none
          else none
        | _ => none
      else none
    else none
  | _ => none

/-- Model of `new Date(string)`; see `parseIsoTail`. -/
def jsNewDate (s : Option Chars) : Option JSDate :=
  match s with
  | none => none
  | some l =>
    match l with
    | y1 :: y2 :: y3 :: y4 :: '-' :: mo1 :: mo2 :: '-' :: d1 :: d2 :: rest =>
      if isDigitCh y1 && isDigitCh y2 && isDigitCh y3 && isDigitCh y4 &&
         isDigitCh mo1 && isDigitCh mo2 && isDigitCh d1 && isDigitCh d2 then
        let y : Int := ((y1.toNat - 48) * 1000 + (y2.toNat - 48) * 100 +
                        (y3.toNat - 48) * 10 + (y4.toNat - 48) : Nat)
        let mo := (mo1.toNat - 48) * 10 + (mo2.toNat - 48)
        let d := (d1.toNat - 48) * 10 + (d2.toNat - 48)
        if 1 ≤ mo ∧ mo ≤ 12 ∧ 1 ≤ d ∧ d ≤ daysInMonth y (mo - 1) then
          parseIsoTail ⟨y, mo - 1, (d : Int), 0⟩ rest
        else none
      else none
    | _ => none

/-- Two-digit zero padding used by the en-US 2-digit time rendering. -/
def pad2 (n : Nat) : Chars := if n < 10 then '0' :: natToChars n else natToChars n

/-- Model of `Date.prototype.toLocaleTimeString('en-US', { hour: '2-digit',
minute: '2-digit', hour12: true })`.  Per ECMA-402 this returns the string
"Invalid Date" on an invalid Date; it does not throw. -/
def jsToLocaleTimeString (d : Option JSDate) : Chars :=
  match d with
  | none => "Invalid Date".toList
  | some dt =>
    let totalMin := dt.msOfDay / 60000
    let hh := totalMin / 60
    let mi := totalMin % 60
    let h12 := if hh % 12 = 0 then 12 else hh % 12
    pad2 h12 ++ ':' :: pad2 mi ++ (if hh < 12 then " AM".toList else " PM".toList)

/-! ## Record normalizer (useTransfers.tsx) -/

/-- Embedding of `mapStatusFromSalesforce` (useTransfers.tsx lines 84-104):
exact, case-sensitive switch; the three in-journey source statuses fall
through to pending, and any unrecognized value hits the default. -/
def mapStatusFromSalesforce (sfStatus : Chars) : TransferStatus :=
  if sfStatus = "Planned".toList then .planned
  else if sfStatus = "Driver Underway".toList then .pending
  else if sfStatus = "Driver Arrived".toList then .pending
  else if sfStatus = "Journey In Progress".toList then .pending
  else if sfStatus = "Completed".toList then .completed
  else if sfStatus = "No Show".toList then .cancelled
  else if sfStatus = "Cancelled with Costs".toList then .cancelledWithCosts
  else .pending

/-- Embedding of the per-record mapping inside `fetchTransfers`
(useTransfers.tsx lines 249-301).  `genId` stands for the
`Math.random().toString(36).substring(2)` fallback id and `nowIso` for
`new Date().toISOString()`, both injected since they read ambient
randomness / the clock.  The try/catch around the time formatting never
fires because `toLocaleTimeString` does not throw (see
`jsToLocaleTimeString`). -/
def mapReservation (genId nowIso : Chars) (r : RawReservation) : Transfer :=
  let id := match r.Id with
    | some i => if i = [] then genId else i
    | none => genId
  let pickupDateTime := jsNewDate r.Pickup_Date_Time__c
  let date := formatDate pickupDateTime invalidDateFallback
  let pickupTime := jsToLocaleTimeString pickupDateTime
  let pickupLocation := r.Pickup_Location__c.map
    (fun loc => { latitude := loc.latitude, longitude := loc.longitude : GeoLoc })
  let dropoffLocation := r.Dropoff_Location__c.map
    (fun loc => { latitude := loc.latitude, longitude := loc.longitude : GeoLoc })
  { id := id
    reservationId := r.Name
    salesforceId := r.Id
    bookingReference := id
    passengerName := jsOrStr r.Passenger_Name__c "Guest".toList
    passengerCount := jsOrNum r.Passenger_Count__c 1
    contactPhone := jsOrStr r.Passenger_Telephone_Number__c "N/A".toList
    origin := jsOrStr r.Pickup_Resolved_Region__c (jsOrStr r.Pickup_Address__c "N/A".toList)
    longPickupAddress := jsOrStr r.Pickup_Address__c "N/A".toList
    destination := jsOrStr r.Dropoff_Resolved_Region__c (jsOrStr r.Dropoff_Address__c "N/A".toList)
    longDropoffAddress := jsOrStr r.Dropoff_Address__c "N/A".toList
    date := date
    pickupTime := pickupTime
    flightNumber := jsOrStr r.Flight_Number__c []
    vehicleType := jsOrStr r.Vehicle_Type__c "Standard".toList
    status := match r.Journey_Status__c with
      | some s => mapStatusFromSalesforce s
      | none => .pending
    notes := jsOrStr r.Additional_Comments__c []
    createdAt := nowIso
    price := jsOrStr r.Supplier_Net_Price__c "N/A".toList
    pickupLocation := pickupLocation
    dropoffLocation := dropoffLocation }

/-! ## Fetch coordinator and view state (useTransfers.tsx)

The hook's React state is embedded as one record, and the async
`fetchTransfers` is split at its single suspension point (the awaited
network call) into a synchronous start step and a synchronous completion
step, which is exactly how the single-threaded event loop executes it. -/

/-- The date-range filter state (`{start, end}`); `end` is a reserved word
in Lean and is embedded as `endDate`. -/
structure DateRange where
  start : Option JSDate
  endDate : Option JSDate
  deriving DecidableEq

/-- The hook state relevant to the claims (useTransfers.tsx lines 43-80):
the in-flight ref, data, loading/error flags, filter state, and the
selection/drawer state. -/
structure HookState where
  requestInProgress : Bool
  allTransfers : List Transfer
  filteredTransfers : List Transfer
  isLoading : Bool
  error : Option Chars
  searchTerm : Chars
  statusFilter : Chars
  dateRange : DateRange
  selectedTransfer : Option Transfer
  isDrawerOpen : Bool
  deriving DecidableEq

/-- Outcome of the awaited network call of `fetchTransfers`: a parsed
payload, a non-ok HTTP response, or a transport failure. -/
inductive FetchResult where
  | ok (data : List RawReservation)
  | httpError (code : Nat)
  | networkError
  deriving DecidableEq

/-- Whether the fetch outcome takes the catch path (non-ok response throws
on line 242; a transport failure rejects the awaited fetch). -/
def FetchResult.isError : FetchResult → Bool
  | .ok _ => false
  | .httpError _ => true
  | .networkError => true

/-- The user-facing message set by the catch branch of `fetchTransfers`
(useTransfers.tsx line 309). -/
def fetchErrorMessage : Chars :=
  "Failed to fetch transfers. Please try again later.".toList

/-- Embedding of the synchronous part of `fetchTransfers` up to the awaited
network call (useTransfers.tsx lines 189-239): the in-flight guard returns
early, a missing bearer token returns early, otherwise the in-flight flag
is set, loading starts, the error is cleared, and the request is issued.
The returned Bool reports whether a network request was issued. -/
def fetchTransfersStart (token : Option Chars) (s : HookState) : HookState × Bool :=
  if s.requestInProgress then (s, false)
  else if token.isNone then (s, false)
  else ({ s with requestInProgress := true, isLoading := true, error := none }, true)

/-- Normalization of a fetched payload (`data.map(...)` on line 249):
`gen i` supplies the random fallback id for the record at index `i` and
`nowIso` the clock reading, see `mapReservation`. -/
def normalizeAll (gen : Nat → Chars) (nowIso : Chars) (data : List RawReservation) :
    List Transfer :=
  data.enum.map (fun p => mapReservation (gen p.1) nowIso p.2)

/-- Embedding of the rest of `fetchTransfers` after the awaited call
resolves (useTransfers.tsx lines 241-314): on success the full set is
replaced by the normalized records and loading ends; on a non-ok response
or transport failure the catch branch sets the user-facing error and ends
loading, leaving the record set untouched; the finally branch clears the
in-flight flag on every path. -/
def fetchTransfersComplete (gen : Nat → Chars) (nowIso : Chars)
    (res : FetchResult) (s : HookState) : HookState :=
  match res with
  | .ok data =>
    { s with allTransfers := normalizeAll gen nowIso data,
             isLoading := false,
             requestInProgress := false }
  | .httpError _ =>
    { s with error := some fetchErrorMessage,
             isLoading := false,
             requestInProgress := false }
  | .networkError =>
    { s with error := some fetchErrorMessage,
             isLoading := false,
             requestInProgress := false }

/-! ## Filter engine (`applyFilters`, useTransfers.tsx lines 319-390) -/

/-- The per-record date predicate of the date-range filter (lines 342-369):
a record whose display date fails to parse is excluded, otherwise it is
kept iff `isDateInRange` holds.  The catch branch is unreachable in the
model since the embedded operations do not throw. -/
def transferDatePred (range : DateRange) (t : Transfer) : Bool :=
  match parseFormattedDate t.date with
  | none => false
  | some d => isDateInRange d range.start range.endDate

/-- The per-record search predicate (lines 377-383): case-insensitive
substring match against passenger name, reservation id, booking reference,
flight number (only when non-empty, a truthiness guard), origin and
destination, joined by OR. -/
def transferSearchPred (searchTerm : Chars) (t : Transfer) : Bool :=
  let search := toLowerJS searchTerm
  includesJS (toLowerJS t.passengerName) search ||
  includesJS (toLowerJS t.reservationId) search ||
  includesJS (toLowerJS t.bookingReference) search ||
  (!(t.flightNumber = []) && includesJS (toLowerJS t.flightNumber) search) ||
  includesJS (toLowerJS t.origin) search ||
  includesJS (toLowerJS t.destination) search

/-- The date-filter stage of `applyFilters` (lines 333-372): applied only
when at least one bound is set. -/
def dateFilterStep (range : DateRange) (l : List Transfer) : List Transfer :=
  if range.start.isSome || range.endDate.isSome then
    l.filter (transferDatePred range)
  else l

/-- The search-filter stage of `applyFilters` (lines 375-387): applied only
when the search term is non-empty (a truthiness guard). -/
def searchFilterStep (searchTerm : Chars) (l : List Transfer) : List Transfer :=
  if searchTerm = [] then l else l.filter (transferSearchPred searchTerm)

/-- Embedding of `applyFilters`: the date stage then the search stage over
a copy of the full record set. -/
def applyFilters (range : DateRange) (searchTerm : Chars)
    (allTransfers : List Transfer) : List Transfer :=
  searchFilterStep searchTerm (dateFilterStep range allTransfers)

/-! ## Pagination (TransfersTable component) -/

/-- The fixed page size (`itemsPerPage`, TransfersTable line 24). -/
def itemsPerPage : Nat := 25

/-- The initial page (`useState(1)`, TransfersTable line 23). -/
def initialPage : Nat := 1

/-- `Math.ceil(transfers.length / itemsPerPage)` (TransfersTable line 27). -/
def totalPages (transfers : List Transfer) : Nat :=
  (transfers.length + itemsPerPage - 1) / itemsPerPage

/-- Embedding of `handlePreviousPage` (TransfersTable lines 32-36). -/
def handlePreviousPage (currentPage : Nat) : Nat :=
  if 1 < currentPage then currentPage - 1 else currentPage

/-- Embedding of `handleNextPage` (TransfersTable lines 38-42). -/
def handleNextPage (transfers : List Transfer) (currentPage : Nat) : Nat :=
  if currentPage < totalPages transfers then currentPage + 1 else currentPage

/-! ## Selection handlers (useTransfers.tsx lines 442-462) -/

/-- Embedding of `handleViewTransfer`: id-lookup against the full set, then
open the drawer. -/
def handleViewTransfer (id : Chars) (s : HookState) : HookState :=
  { s with selectedTransfer := s.allTransfers.find? (fun t => t.id = id),
           isDrawerOpen := true }

/-- Embedding of `handleMarkCompleted` (useTransfers.tsx lines 448-462):
set the matching record's status to completed in the full set, mirror the
change into the selection when it is the selected record, and close the
drawer. -/
def handleMarkCompleted (id : Chars) (s : HookState) : HookState :=
  { s with
      allTransfers := s.allTransfers.map (fun t =>
        if t.id = id then { t with status := .completed } else t),
      selectedTransfer := match s.selectedTransfer with
        | some sel =>
          if sel.id = id then some { sel with status := .completed } else some sel
        | none => none,
      isDrawerOpen := false }

/-! ## Concrete values and helper predicates used by the claim statements -/

/-- The source statuses the translation table recognizes. -/
def recognizedStatuses : List Chars :=
  ["Planned", "Driver Underway", "Driver Arrived", "Journey In Progress",
   "Completed", "No Show", "Cancelled with Costs"].map String.toList

/-- A raw record with every optional field absent. -/
def blankReservation : RawReservation :=
  { Id := none
    Name := "R-0001".toList
    Pickup_Date_Time__c := none
    Passenger_Name__c := none
    Passenger_Count__c := none
    Passenger_Telephone_Number__c := none
    Pickup_Resolved_Region__c := none
    Pickup_Address__c := none
    Dropoff_Resolved_Region__c := none
    Dropoff_Address__c := none
    Flight_Number__c := none
    Vehicle_Type__c := none
    Journey_Status__c := none
    Additional_Comments__c := none
    Supplier_Net_Price__c := none
    Pickup_Location__c := none
    Dropoff_Location__c := none }

/-- A raw record whose pickup-datetime field does not parse. -/
def c3Record : RawReservation :=
  { blankReservation with Pickup_Date_Time__c := some "garbage".toList }

/-- A raw record whose source pickup location has a latitude but no
longitude. -/
def c8Record : RawReservation :=
  { blankReservation with Pickup_Location__c := some { latitude := some 1, longitude := none } }

/-- A sample normalized transfer (fallback id "t1"). -/
def sampleTransfer : Transfer :=
  mapReservation "t1".toList "2025-01-01T00:00:00Z".toList blankReservation

/-- A sample hook state holding `sampleTransfer`, used to instantiate the
universally quantified theorems. -/
def sampleState : HookState :=
  { requestInProgress := false
    allTransfers := [sampleTransfer]
    filteredTransfers := []
    isLoading := false
    error := none
    searchTerm := "abc".toList
    statusFilter := "Planned".toList
    dateRange := { start := none, endDate := none }
    selectedTransfer := some sampleTransfer
    isDrawerOpen := true }

/-- Apr 5 2025 at noon. -/
def c6Date : JSDate := ⟨2025, 3, 5, 43200000⟩

/-- Apr 5 2025 at midnight. -/
def c6Start : JSDate := ⟨2025, 3, 5, 0⟩

/-- Apr 3 2025 at midnight: an end bound lying before the start bound. -/
def c6End : JSDate := ⟨2025, 3, 3, 0⟩

/-- Two JS dates fall on the same calendar day. -/
def sameCalendarDay (a b : JSDate) : Prop :=
  a.year = b.year ∧ a.month = b.month ∧ a.day = b.day

/-- Calendar-day order (the day of `a` is on or before the day of `b`). -/
def calendarDayLE (a b : JSDate) : Prop :=
  a.year < b.year ∨
    (a.year = b.year ∧ (a.month < b.month ∨ (a.month = b.month ∧ a.day ≤ b.day)))

/-- The canonical display-date string for month index `mo`, day `d` and
year `y`: exactly the shape `formatDate` produces. -/
def renderCanonical (mo d y : Nat) : Chars :=
  (monthsArr.getD mo "undefined".toList) ++
    ' ' :: natToChars d ++ ',' :: ' ' :: natToChars y

/-! ## Theorems -/

/-- Two filters applied in sequence commute. -/
theorem filter_swap {α : Type} (p q : α → Bool) (l : List α) :
    (l.filter p).filter q = (l.filter q).filter p := by
  induction l with
  | nil => rfl
  | cons a t ih =>
    by_cases hp : p a <;> by_cases hq : q a <;>
      simp [List.filter_cons, hp, hq, ih]

/-- C1: for every state in which a fetch is outstanding (the in-flight flag
is set), invoking the fetch trigger again performs no second network call —
the call returns with the state unchanged and no request issued — and the
completion of the outstanding fetch clears the flag whether it succeeds or
fails. -/
theorem C1_inflight_dedup :
    (∀ (token : Option Chars) (s : HookState), s.requestInProgress = true →
      fetchTransfersStart token s = (s, false)) ∧
    (∀ (gen : Nat → Chars) (nowIso : Chars) (res : FetchResult) (s : HookState),
      (fetchTransfersComplete gen nowIso res s).requestInProgress = false) := by
  constructor
  · intro token s h
    simp [fetchTransfersStart, h]
  · intro gen nowIso res s
    cases res <;> simp [fetchTransfersComplete]

/-- Witness for C1 at a concrete in-flight state. -/
theorem C1_inflight_dedup_witness :
    fetchTransfersStart (some "tok".toList) { sampleState with requestInProgress := true } =
      ({ sampleState with requestInProgress := true }, false) ∧
    (fetchTransfersComplete (fun _ => []) [] .networkError
      { sampleState with requestInProgress := true }).requestInProgress = false :=
  ⟨C1_inflight_dedup.1 (some "tok".toList) _ rfl,
   C1_inflight_dedup.2 (fun _ => []) [] .networkError _⟩

/-- C2: for every prior state and every failing main fetch (non-ok HTTP
response or transport failure), the full record set is unchanged and the
error state holds a fixed non-empty user-facing string. -/
theorem C2_failure_preserves_data (gen : Nat → Chars) (nowIso : Chars)
    (s : HookState) (res : FetchResult) (h : res.isError = true) :
    (fetchTransfersComplete gen nowIso res s).allTransfers = s.allTransfers ∧
    (fetchTransfersComplete gen nowIso res s).error = some fetchErrorMessage ∧
    fetchErrorMessage ≠ [] := by
  cases res with
  | ok data => simp [FetchResult.isError] at h
  | httpError code => exact ⟨rfl, rfl, by decide⟩
  | networkError => exact ⟨rfl, rfl, by decide⟩

/-- Witness for C2 at a concrete HTTP 500 failure. -/
theorem C2_failure_preserves_data_witness :
    (fetchTransfersComplete (fun _ => []) [] (.httpError 500) sampleState).allTransfers =
      sampleState.allTransfers ∧
    (fetchTransfersComplete (fun _ => []) [] (.httpError 500) sampleState).error =
      some fetchErrorMessage ∧
    fetchErrorMessage ≠ [] :=
  C2_failure_preserves_data (fun _ => []) [] sampleState (.httpError 500) rfl

/-- C4: the status translation is total — any source status outside the
recognized set maps to pending, and each recognized value maps exactly per
the fixed table. -/
theorem C4_status_translation :
    (∀ sfStatus : Chars, sfStatus ∉ recognizedStatuses →
      mapStatusFromSalesforce sfStatus = .pending) ∧
    mapStatusFromSalesforce "Planned".toList = .planned ∧
    mapStatusFromSalesforce "Driver Underway".toList = .pending ∧
    mapStatusFromSalesforce "Driver Arrived".toList = .pending ∧
    mapStatusFromSalesforce "Journey In Progress".toList = .pending ∧
    mapStatusFromSalesforce "Completed".toList = .completed ∧
    mapStatusFromSalesforce "No Show".toList = .cancelled ∧
    mapStatusFromSalesforce "Cancelled with Costs".toList = .cancelledWithCosts := by
  refine ⟨?_, by decide, by decide, by decide, by decide, by decide, by decide, by decide⟩
  intro s hs
  simp only [recognizedStatuses, List.map_cons, List.map_nil, List.mem_cons,
    List.not_mem_nil, or_false] at hs
  push_neg at hs
  obtain ⟨h1, h2, h3, h4, h5, h6, h7⟩ := hs
  unfold mapStatusFromSalesforce
  rw [if_neg h1, if_neg h2, if_neg h3, if_neg h4, if_neg h5, if_neg h6, if_neg h7]

/-- Witness for C4 at a concrete unrecognized status. -/
theorem C4_status_translation_witness :
    mapStatusFromSalesforce "Some New Status".toList = .pending :=
  C4_status_translation.1 "Some New Status".toList (by decide)

/-- C7: for every full record set, date range and search term, the two
filter stages commute — applying date-then-search and search-then-date
yields the same list of record ids. -/
theorem C7_filter_order_commutes (allTransfers : List Transfer)
    (range : DateRange) (searchTerm : Chars) :
    (searchFilterStep searchTerm (dateFilterStep range allTransfers)).map Transfer.id =
      (dateFilterStep range (searchFilterStep searchTerm allTransfers)).map Transfer.id := by
  unfold searchFilterStep dateFilterStep
  by_cases hs : searchTerm = [] <;>
    cases hd : (range.start.isSome || range.endDate.isSome) <;>
      simp [hs, hd, List.filter_filter, Bool.and_comm]

/-- C9: pagination uses a fixed page size of 25 and starts at page 1;
requesting the previous page at page 1 and the next page at the last page
both leave the page unchanged. -/
theorem C9_pagination_clamp :
    itemsPerPage = 25 ∧ initialPage = 1 ∧
    handlePreviousPage 1 = 1 ∧
    ∀ transfers : List Transfer,
      handleNextPage transfers (totalPages transfers) = totalPages transfers := by
  refine ⟨rfl, rfl, rfl, ?_⟩
  intro transfers
  simp [handleNextPage]

/-- C10: marking a record completed unconditionally closes the drawer and
changes nothing except the status of the record with that id: records with
a different id, the search term, the status filter, the date range and the
error state are all left as they were. -/
theorem C10_markCompleted_frame (s : HookState) (id : Chars) :
    (handleMarkCompleted id s).isDrawerOpen = false ∧
    (handleMarkCompleted id s).searchTerm = s.searchTerm ∧
    (handleMarkCompleted id s).statusFilter = s.statusFilter ∧
    (handleMarkCompleted id s).dateRange = s.dateRange ∧
    (handleMarkCompleted id s).error = s.error ∧
    List.Forall₂ (fun t t' =>
        (t.id ≠ id → t' = t) ∧
        (t.id = id → t' = { t with status := .completed }))
      s.allTransfers (handleMarkCompleted id s).allTransfers := by
  refine ⟨rfl, rfl, rfl, rfl, rfl, ?_⟩
  simp only [handleMarkCompleted]
  induction s.allTransfers with
  | nil => exact List.Forall₂.nil
  | cons a t ih =>
    simp only [List.map_cons]
    refine List.Forall₂.cons ⟨fun hne => ?_, fun he => ?_⟩ ih
    · simp [hne]
    · simp [he]

/-- Witness for C10 at a concrete state and id. -/
theorem C10_markCompleted_frame_witness :
    (handleMarkCompleted "t1".toList sampleState).isDrawerOpen = false ∧
    (handleMarkCompleted "t1".toList sampleState).error = sampleState.error :=
  ⟨(C10_markCompleted_frame sampleState "t1".toList).1,
   (C10_markCompleted_frame sampleState "t1".toList).2.2.2.2.1⟩

/-- C8 counterexample: a raw record whose source pickup location carries a
latitude but no longitude still yields a transfer with a (partial)
geolocation field — the normalizer only tests that the location object is
present, not that both coordinates are, so the claim as stated is false. -/
theorem C8_counterexample :
    c8Record.Pickup_Location__c = some { latitude := some 1, longitude := none } ∧
    (mapReservation "g1".toList "now".toList c8Record).pickupLocation =
      some { latitude := some 1, longitude := none } := by
  exact ⟨rfl, rfl⟩

/-- C8 amended: the normalized transfer carries a pickup (resp. dropoff)
geolocation field exactly when the corresponding source location field is
present, and when present the latitude and longitude are copied through
as-is (so a partially populated source object is copied, not omitted and
not zero-filled). -/
theorem C8_geolocation_passthrough (genId nowIso : Chars) (r : RawReservation) :
    ((mapReservation genId nowIso r).pickupLocation.isSome ↔
      r.Pickup_Location__c.isSome) ∧
    ((mapReservation genId nowIso r).dropoffLocation.isSome ↔
      r.Dropoff_Location__c.isSome) ∧
    (∀ loc, r.Pickup_Location__c = some loc →
      (mapReservation genId nowIso r).pickupLocation =
        some { latitude := loc.latitude, longitude := loc.longitude }) ∧
    (∀ loc, r.Dropoff_Location__c = some loc →
      (mapReservation genId nowIso r).dropoffLocation =
        some { latitude := loc.latitude, longitude := loc.longitude }) := by
  refine ⟨?_, ?_, ?_, ?_⟩
  · simp [mapReservation]
  · simp [mapReservation]
  · intro loc h
    simp [mapReservation, h]
  · intro loc h
    simp [mapReservation, h]

/-- Witness for C8's amended theorem at the concrete partial-location
record. -/
theorem C8_geolocation_passthrough_witness :
    (mapReservation "g1".toList "now".toList c8Record).dropoffLocation.isSome ↔
      c8Record.Dropoff_Location__c.isSome :=
  (C8_geolocation_passthrough "g1".toList "now".toList c8Record).2.1

/-- C3: at a record whose pickup-datetime field fails to parse, the
normalizer does yield the format fallback for `date`, but `pickupTime`
becomes the string "Invalid Date", not "N/A": per ECMA-402,
toLocaleTimeString on an invalid Date returns "Invalid Date" instead of
throwing, so the code's 'N/A' initialization and its try/catch (whose
intent the claim describes) never take effect. -/
theorem C3_unparseable_datetime_behavior :
    jsNewDate c3Record.Pickup_Date_Time__c = none ∧
    (mapReservation "g".toList "now".toList c3Record).date = invalidDateFallback ∧
    (mapReservation "g".toList "now".toList c3Record).pickupTime = "Invalid Date".toList ∧
    (mapReservation "g".toList "now".toList c3Record).pickupTime ≠ "N/A".toList := by
  refine ⟨rfl, rfl, rfl, by decide⟩

/-- C6 counterexample: with both bounds non-null but the start day (Apr 5
2025) after the end day (Apr 3 2025), a timestamp on the same calendar day
as the start bound is reported out of range, so the claim as stated fails
for such a range. -/
theorem C6_counterexample :
    c6Date.year = c6Start.year ∧ c6Date.month = c6Start.month ∧
    c6Date.day = c6Start.day ∧
    isDateInRange c6Date (some c6Start) (some c6End) = false := by
  decide

/-- C6 amended: for every timestamp and every range with non-null bounds
whose start calendar day is on or before its end calendar day, a timestamp
on the same calendar day as either bound is in range (both boundaries
inclusive, compared by calendar day rather than exact instant). -/
theorem C6_boundaries_inclusive (d s e : JSDate) (hse : calendarDayLE s e)
    (h : sameCalendarDay d s ∨ sameCalendarDay d e) :
    isDateInRange d (some s) (some e) = true := by
  simp only [isDateInRange, Bool.and_eq_true, Bool.or_eq_true,
    decide_eq_true_eq]
  unfold calendarDayLE at hse
  unfold sameCalendarDay at h
  rcases h with ⟨h1, h2, h3⟩ | ⟨h1, h2, h3⟩ <;> constructor <;> omega

/-- Witness for C6's amended theorem: noon Apr 5 2025 against the range
[Apr 5 2025, Apr 6 2025] (bounds at midnight). -/
theorem C6_boundaries_inclusive_witness :
    isDateInRange c6Date (some c6Start) (some ⟨2025, 3, 6, 0⟩) = true :=
  C6_boundaries_inclusive c6Date c6Start ⟨2025, 3, 6, 0⟩
    (Or.inr ⟨rfl, Or.inr ⟨rfl, by norm_num [c6Start]⟩⟩)
    (Or.inl ⟨rfl, rfl, rfl⟩)

/-! ## Lemmas for the display-date round trip (C5) -/

/-- The fueled digit extraction agrees with `Nat.digits` once the fuel
covers the input. -/
theorem natDigitsRev_eq_digits : ∀ (f n : Nat), n ≤ f →
    natDigitsRev f n = Nat.digits 10 n := by
  intro f
  induction f with
  | zero =>
    intro n h
    interval_cases n
    simp [natDigitsRev]
  | succ f ih =>
    intro n h
    by_cases h0 : n = 0
    · subst h0
      simp [natDigitsRev]
    · have hdiv : n / 10 ≤ f := by
        have := Nat.div_lt_self (Nat.pos_of_ne_zero h0) (by norm_num : 1 < 10)
        omega
      rw [natDigitsRev, if_neg h0, ih (n / 10) hdiv,
        Nat.digits_def' (by norm_num : 1 < 10) (Nat.pos_of_ne_zero h0)]

/-- `natToChars` in terms of `Nat.digits`. -/
theorem natToChars_eq (n : Nat) :
    natToChars n =
      if n = 0 then ['0'] else ((Nat.digits 10 n).map Nat.digitChar).reverse := by
  unfold natToChars
  rw [natDigitsRev_eq_digits n n le_rfl]

/-- Code point of the digit character of a digit. -/
theorem digitChar_toNat {d : Nat} (h : d < 10) : (Nat.digitChar d).toNat = 48 + d := by
  interval_cases d <;> rfl

/-- Every character of a rendered natural number is a decimal digit. -/
theorem natToChars_digits (n : Nat) : ∀ c ∈ natToChars n, isDigitCh c = true := by
  rw [natToChars_eq]
  by_cases h : n = 0
  · subst h
    intro c hc
    simp at hc
    subst hc
    decide
  · simp only [if_neg h, List.mem_reverse, List.mem_map]
    rintro c ⟨d, hd, rfl⟩
    have hlt : d < 10 := Nat.digits_lt_base (by norm_num) hd
    simp only [isDigitCh, digitChar_toNat hlt, Bool.and_eq_true, decide_eq_true_eq]
    omega

/-- A rendered natural number is never the empty string. -/
theorem natToChars_ne_nil (n : Nat) : natToChars n ≠ [] := by
  rw [natToChars_eq]
  by_cases h : n = 0
  · simp [h]
  · simp [h, Nat.digits_ne_nil_iff_ne_zero]

/-- Reading the rendered digits back with the parseInt fold recovers the
number. -/
theorem foldl_digitChars (ds : List Nat) (hds : ∀ d ∈ ds, d < 10) :
    ((ds.map Nat.digitChar).reverse).foldl (fun a c => 10 * a + (c.toNat - 48)) 0 =
      Nat.ofDigits 10 ds := by
  induction ds with
  | nil => rfl
  | cons d tl ih =>
    have hd : d < 10 := hds d (List.mem_cons_self d tl)
    have htl : ∀ x ∈ tl, x < 10 := fun x hx => hds x (List.mem_cons_of_mem d hx)
    simp only [List.map_cons, List.reverse_cons, List.foldl_append, ih htl,
      List.foldl_cons, List.foldl_nil, Nat.ofDigits_cons, digitChar_toNat hd]
    omega

/-- The parseInt fold over `natToChars n` yields `n`. -/
theorem foldl_natToChars (n : Nat) :
    (natToChars n).foldl (fun a c => 10 * a + (c.toNat - 48)) 0 = n := by
  rw [natToChars_eq]
  by_cases h : n = 0
  · subst h
    decide
  · rw [if_neg h, foldl_digitChars _ (fun d hd => Nat.digits_lt_base (by norm_num) hd),
      Nat.ofDigits_digits]

/-- takeWhile keeps a list all of whose elements satisfy the predicate. -/
theorem takeWhile_all {p : Char → Bool} : ∀ l : Chars,
    (∀ c ∈ l, p c = true) → l.takeWhile p = l := by
  intro l h
  induction l with
  | nil => rfl
  | cons a t ih =>
    rw [List.takeWhile_cons, if_pos (h a (List.mem_cons_self a t)),
      ih (fun c hc => h c (List.mem_cons_of_mem a hc))]

/-- `parseIntDigits` recovers a rendered natural number. -/
theorem parseIntDigits_natToChars (n : Nat) :
    parseIntDigits (natToChars n) = some n := by
  unfold parseIntDigits
  rw [takeWhile_all _ (natToChars_digits n), if_neg (natToChars_ne_nil n),
    foldl_natToChars n]

/-- A digit character is not parseInt whitespace and not a sign. -/
theorem digit_not_special {c : Char} (h : isDigitCh c = true) :
    isWSCh c = false ∧ c ≠ '-' ∧ c ≠ '+' ∧ c ≠ ' ' ∧ c ≠ ',' := by
  simp only [isDigitCh, Bool.and_eq_true, decide_eq_true_eq] at h
  obtain ⟨h1, h2⟩ := h
  refine ⟨?_, ?_, ?_, ?_, ?_⟩
  · simp only [isWSCh, Bool.or_eq_false_iff, decide_eq_false_iff_not]
    refine ⟨⟨⟨?_, ?_⟩, ?_⟩, ?_⟩ <;> intro he <;> subst he <;> revert h1 <;> decide
  · intro he; subst he; revert h1; decide
  · intro he; subst he; revert h1; decide
  · intro he; subst he; revert h1; decide
  · intro he; subst he; revert h1; decide

/-- `parseIntJS` recovers a rendered natural number. -/
theorem parseIntJS_natToChars (n : Nat) :
    parseIntJS (natToChars n) = some (n : Int) := by
  obtain ⟨c, cs, hc⟩ : ∃ c cs, natToChars n = c :: cs := by
    cases h : natToChars n with
    | nil => exact absurd h (natToChars_ne_nil n)
    | cons c cs => exact ⟨c, cs, rfl⟩
  have hdig : isDigitCh c = true :=
    natToChars_digits n c (hc ▸ List.mem_cons_self c cs)
  obtain ⟨hws, hminus, hplus, _, _⟩ := digit_not_special hdig
  unfold parseIntJS
  rw [hc, List.dropWhile_cons, if_neg (by simp [hws])]
  simp only [parseIntSigned]
  rw [if_neg hminus, if_neg hplus, ← hc, parseIntDigits_natToChars n]
  rfl

/-- Splitting a list not containing the separator yields one token. -/
theorem splitChar_not_mem {sep : Char} : ∀ {l : Chars}, sep ∉ l →
    splitChar sep l = [l] := by
  intro l h
  induction l with
  | nil => rfl
  | cons c t ih =>
    have hc : ¬(c = sep) := fun he => h (he ▸ List.mem_cons_self c t)
    have ht : sep ∉ t := fun hm => h (List.mem_cons_of_mem c hm)
    simp only [splitChar, if_neg hc, ih ht]

/-- Splitting peels off a separator-free leading token. -/
theorem splitChar_append {sep : Char} : ∀ {a : Chars} (b : Chars), sep ∉ a →
    splitChar sep (a ++ sep :: b) = a :: splitChar sep b := by
  intro a
  induction a with
  | nil =>
    intro b _
    simp [splitChar]
  | cons c t ih =>
    intro b h
    have hc : ¬(c = sep) := fun he => h (he ▸ List.mem_cons_self c t)
    have ht : sep ∉ t := fun hm => h (List.mem_cons_of_mem c hm)
    simp only [List.cons_append, splitChar, if_neg hc, List.append_eq, ih b ht]

/-- Removing the first separator from a separator-free list with one
appended recovers the list. -/
theorem removeFirst_append {sep : Char} : ∀ {a : Chars}, sep ∉ a →
    removeFirst sep (a ++ [sep]) = a := by
  intro a h
  induction a with
  | nil => simp [removeFirst]
  | cons c t ih =>
    have hc : ¬(c = sep) := fun he => h (he ▸ List.mem_cons_self c t)
    have ht : sep ∉ t := fun hm => h (List.mem_cons_of_mem c hm)
    simp only [List.cons_append, removeFirst, if_neg hc, List.append_eq, ih ht]

/-- The space and comma characters are not digits, so they do not occur in
a rendered natural number. -/
theorem natToChars_no_space_comma (n : Nat) :
    ' ' ∉ natToChars n ∧ ',' ∉ natToChars n := by
  constructor <;> intro h <;> have := natToChars_digits n _ h <;>
    revert this <;> decide

/-- For every month index, the formatting month name is non-empty, free of
spaces, and is mapped back to the same index by the parsing month record. -/
theorem month_name_facts (mo : Nat) (hmo : mo < 12) :
    (monthsArr.getD mo "undefined".toList) ≠ [] ∧
    ' ' ∉ (monthsArr.getD mo "undefined".toList) ∧
    monthMap (monthsArr.getD mo "undefined".toList) = some (mo : Int) := by
  interval_cases mo <;> exact ⟨by decide, by decide, by decide⟩

/-- The JS Date constructor is the identity on an in-range civil date given
at noon (years 100..9999, month index below 12, day within the month). -/
theorem mkDateJS_valid (y mo d : Int) (hmo0 : 0 ≤ mo) (hmo : mo < 12)
    (hy1 : 100 ≤ y) (hy2 : y ≤ 9999) (hd1 : 1 ≤ d)
    (hd2 : d ≤ daysInMonth y mo.toNat) :
    mkDateJS y mo d 12 0 0 0 = some ⟨y, mo.toNat, d, 43200000⟩ := by
  unfold mkDateJS
  dsimp only
  have hyr : ¬(0 ≤ y ∧ y ≤ 99) := by omega
  rw [if_neg hyr]
  have ht0 : ((12 : Int) * 3600000 + 0 * 60000 + 0 * 1000 + 0) = 43200000 := by norm_num
  rw [ht0]
  have hediv : (y * 12 + mo) / 12 = y := by omega
  have hemod : ((y * 12 + mo) % 12).toNat = mo.toNat := by omega
  have hd0 : d + (43200000 : Int) / 86400000 = d := by norm_num
  rw [hediv, hemod, hd0]
  have hnd : normDays (d.natAbs + 24) y mo.toNat d = (y, mo.toNat, d) := by
    rw [normDays, if_neg (by omega), if_neg (by omega)]
  rw [hnd]
  rw [if_neg (by omega)]
  norm_num
  decide

/-- Rendering a non-negative integer agrees with the natural rendering. -/
theorem intToChars_natCast (n : Nat) : intToChars (n : Int) = natToChars n := by
  unfold intToChars
  rw [if_neg (by omega), Int.toNat_natCast]

/-- C5: for every string in the canonical display-date format — the exact
output shape of `formatDate` on a real calendar date (month name from the
table, in-range day, four-digit year) — `parseFormattedDate` succeeds, and
formatting the parse result reproduces the string. -/
theorem C5_display_date_roundtrip (mo d y : Nat) (hmo : mo < 12) (hd1 : 1 ≤ d)
    (hd2 : d ≤ daysInMonth (y : Int) mo) (hy1 : 100 ≤ y) (hy2 : y ≤ 9999) :
    parseFormattedDate (renderCanonical mo d y) ≠ none ∧
    formatDate (parseFormattedDate (renderCanonical mo d y)) invalidDateFallback =
      renderCanonical mo d y := by
  obtain ⟨hmne, hmsp, hmmap⟩ := month_name_facts mo hmo
  obtain ⟨hdsp, hdcm⟩ := natToChars_no_space_comma d
  obtain ⟨hysp, _⟩ := natToChars_no_space_comma y
  have hassoc : renderCanonical mo d y =
      (monthsArr.getD mo "undefined".toList) ++
        ' ' :: ((natToChars d ++ [',']) ++ ' ' :: natToChars y) := by
    simp [renderCanonical, List.append_assoc]
  have hBsp : ' ' ∉ natToChars d ++ [','] := by
    intro h
    rcases List.mem_append.mp h with h | h
    · exact hdsp h
    · simp at h
  have hsplit : splitChar ' ' (renderCanonical mo d y) =
      [monthsArr.getD mo "undefined".toList, natToChars d ++ [','], natToChars y] := by
    rw [hassoc, splitChar_append _ hmsp, splitChar_append _ hBsp,
      splitChar_not_mem hysp]
  have hne : renderCanonical mo d y ≠ [] := by
    rw [hassoc]
    intro h
    rw [List.append_eq_nil] at h
    exact hmne h.1
  have hparse : parseFormattedDate (renderCanonical mo d y) =
      mkDateJS (y : Int) (mo : Int) (d : Int) 12 0 0 0 := by
    unfold parseFormattedDate
    rw [if_neg hne, hsplit]
    dsimp only
    rw [removeFirst_append hdcm, hmmap, parseIntJS_natToChars d, parseIntJS_natToChars y]
  have hmk : mkDateJS (y : Int) (mo : Int) (d : Int) 12 0 0 0 =
      some ⟨(y : Int), mo, (d : Int), 43200000⟩ := by
    have h := mkDateJS_valid (y : Int) (mo : Int) (d : Int)
      (by omega) (by exact_mod_cast hmo) (by exact_mod_cast hy1)
      (by exact_mod_cast hy2) (by exact_mod_cast hd1)
      (by rw [Int.toNat_natCast]; exact_mod_cast hd2)
    rw [h, Int.toNat_natCast]
  refine ⟨?_, ?_⟩
  · rw [hparse, hmk]
    simp
  · rw [hparse, hmk]
    unfold formatDate
    dsimp only
    rw [intToChars_natCast d, intToChars_natCast y]
    rfl

/-- Witness for C5 at the concrete canonical string "Apr 22, 2025". -/
theorem C5_display_date_roundtrip_witness :
    parseFormattedDate (renderCanonical 3 22 2025) ≠ none ∧
    formatDate (parseFormattedDate (renderCanonical 3 22 2025)) invalidDateFallback =
      renderCanonical 3 22 2025 :=
  C5_display_date_roundtrip 3 22 2025 (by decide) (by decide) (by decide)
    (by decide) (by decide)
